import Mathlib

/-!
Verification development for the APOGEE academic-dashboard core
(`db_manager.py`): a shallow embedding of the grade-tree builder
(`_extract_courses` / `_extract_ue_courses`), the header-metadata
extraction (`_extract_parcours_info`, academic-year field), and the
SQLite-backed store operations (`import_apogee_data`, `delete_data`,
`get_available_years`, `export_to_dataframe`), together with theorems
about the specified properties.

Python regular expressions are embedded as explicit backtracking
matchers over `List Char`, specialised to the exact patterns of the
source (greedy and lazy repetition resolved as the CPython `re` engine
resolves them for these patterns; character classes restricted to the
ASCII behaviour exercised by the data, which is what the source's
transcripts contain).
-/

namespace Apogee

/-- ASCII digit, the `\d`/`[0-9]` class as used by the source's patterns. -/
def isDigitC (c : Char) : Bool := '0' ≤ c && c ≤ '9'

/-- Python `\s` whitespace class (ASCII part). -/
def isSpaceC (c : Char) : Bool :=
  c = ' ' || c = '\t' || c = '\n' || c = '\r' || c = '\x0b' || c = '\x0c'

/-- The class `[^0-9\n]` from the unit pattern `UE\d+[^0-9\n]*`. -/
def ueNameC (c : Char) : Bool := !(isDigitC c) && c ≠ '\n'

/-- The class `[^U/\n]` opening the course pattern. -/
def courseFirstC (c : Char) : Bool := c ≠ 'U' && c ≠ '/' && c ≠ '\n'

/-- `\d+` at the head of `l`: fails when there is no digit, else
captures the maximal digit run and returns the rest. -/
def splitDigits (l : List Char) : Option (List Char × List Char) :=
  if (l.takeWhile isDigitC).isEmpty then none
  else some (l.takeWhile isDigitC, l.dropWhile isDigitC)

/-- Matches `(\d+[\.,]\d+)\s*/20` at the head of `r1`, returning the
captured score characters and the remaining input. -/
def matchScoreDigits (r1 : List Char) : Option (List Char × List Char) :=
  (splitDigits r1).bind (fun d1r2 =>
    match d1r2.2 with
    | sep :: r3 =>
      if sep = '.' || sep = ',' then
        (splitDigits r3).bind (fun d2r4 =>
          match d2r4.2.dropWhile isSpaceC with
          | '/' :: '2' :: '0' :: rest => some (d1r2.1 ++ sep :: d2r4.1, rest)
          | _ => none)
      else none
    | [] => none)

/-- Matches the fragment `\s+(\d+[\.,]\d+)\s*/20` at the head of `cs`.
Each greedy repetition here is deterministic because the character
class that follows it is disjoint from the repeated class. -/
def matchScoreTail (cs : List Char) : Option (List Char × List Char) :=
  if (cs.takeWhile isSpaceC).isEmpty then none
  else matchScoreDigits (cs.dropWhile isSpaceC)

/-- Greedy backtracking for `[^0-9\n]*` in the unit pattern: `run` is the
maximal run of `[^0-9\n]` characters, `r3` what follows it; the engine
first keeps all of `run` in group 1 and backs off one character at a
time until `\s+(\d+[\.,]\d+)\s*/20` matches the rest. -/
def tryUESplits (run r3 : List Char) : Nat → Option (List Char × List Char × List Char)
  | 0 =>
    match matchScoreTail (run ++ r3) with
    | some pr => some (([] : List Char), pr.1, pr.2)
    | none => none
  | k + 1 =>
    match matchScoreTail (run.drop (k + 1) ++ r3) with
    | some pr => some (run.take (k + 1), pr.1, pr.2)
    | none => tryUESplits run r3 k

/-- One attempt to match the unit pattern
`(UE\d+[^0-9\n]*)\s+(\d+[\.,]\d+)\s*/20` at the head of `cs`.
Returns (group 1, group 2, rest after the whole match). -/
def matchUEHead (cs : List Char) : Option (List Char × List Char × List Char) :=
  match cs with
  | 'U' :: 'E' :: r1 =>
    (splitDigits r1).bind (fun dsr2 =>
      (tryUESplits (dsr2.2.takeWhile ueNameC) (dsr2.2.dropWhile ueNameC)
          (dsr2.2.takeWhile ueNameC).length).map
        (fun pr => ('U' :: 'E' :: (dsr2.1 ++ pr.1), pr.2.1, pr.2.2)))
  | _ => none

/-- `re.findall` scan for the unit pattern: try a match at every
position from left to right, continuing after the end of each match.
The fuel argument bounds the number of steps; every step consumes at
least one character, so `length + 1` fuel never runs out. -/
def ueFindAllAux : Nat → List Char → List (List Char × List Char)
  | 0, _ => []
  | _ + 1, [] => []
  | fuel + 1, c :: cs =>
    match matchUEHead (c :: cs) with
    | some pr => (pr.1, pr.2.1) :: ueFindAllAux fuel pr.2.2
    | none => ueFindAllAux fuel cs

/-- `re.findall(ue_pattern, notes_block)` from `_extract_courses`. -/
def ueFindAll (s : String) : List (String × String) :=
  (ueFindAllAux (s.data.length + 1) s.data).map
    (fun pr => (String.mk pr.1, String.mk pr.2))

/-- Lazy expansion of `[^\n]*?` in the course pattern: starting from the
shortest group 1, first try `\s+(\d+[\.,]\d+)\s*/20` on the rest, and
only on failure move one (non-newline) character into group 1. -/
def tryCourseLazy (fuel : Nat) : List Char → List Char → Option (List Char × List Char × List Char) :=
  match fuel with
  | 0 => fun _ _ => none
  | fuel + 1 => fun g1rev cs =>
    match matchScoreTail cs with
    | some pr => some (g1rev.reverse, pr.1, pr.2)
    | none =>
      match cs with
      | [] => none
      | c :: cs' => if c = '\n' then none else tryCourseLazy fuel (c :: g1rev) cs'

/-- One attempt to match the course pattern
`^([^U/\n][^\n]*?)\s+(\d+[\.,]\d+)\s*/20` at the head of `cs`
(the `^` anchor is handled by the caller). -/
def matchCourseHead (cs : List Char) : Option (List Char × List Char × List Char) :=
  match cs with
  | [] => none
  | c :: cs' =>
    if courseFirstC c then
      (tryCourseLazy (cs'.length + 1) [c] cs').map
        (fun pr => (pr.1, pr.2.1, pr.2.2))
    else none

/-- `re.findall(course_pattern, ue_section, re.MULTILINE)`: a match may
start only at the beginning of the string or right after a newline
(`atStart` tracks this); a match never ends in a newline (it ends with
the literal "0"), so scanning resumes with `atStart = false`. -/
def courseFindAllAux : Nat → Bool → List Char → List (List Char × List Char)
  | 0, _, _ => []
  | _ + 1, _, [] => []
  | fuel + 1, atStart, c :: cs =>
    if atStart then
      match matchCourseHead (c :: cs) with
      | some pr => (pr.1, pr.2.1) :: courseFindAllAux fuel false pr.2.2
      | none => courseFindAllAux fuel (c = '\n') cs
    else courseFindAllAux fuel (c = '\n') cs

def courseFindAll (cs : List Char) : List (List Char × List Char) :=
  courseFindAllAux (cs.length + 1) true cs

/-- Value of a digit run, most significant first. -/
def digitsToNat (l : List Char) : Nat := l.foldl (fun a c => a * 10 + (c.toNat - 48)) 0

/-- Python `float()` restricted to the plain decimal forms that occur in
this system (`digits` or `digits.digits`); anything else is a parse
failure (`None` models the `ValueError`). -/
def parseFloatL? (l : List Char) : Option ℚ :=
  let ip := l.takeWhile isDigitC
  match l.dropWhile isDigitC with
  | [] => if ip.isEmpty then none else some ((digitsToNat ip : ℚ))
  | '.' :: frac =>
    if ip.isEmpty || frac.isEmpty || !(frac.all isDigitC) then none
    else some ((digitsToNat ip : ℚ) + (digitsToNat frac : ℚ) / ((10 : ℚ) ^ frac.length))
  | _ => none

/-- `str.replace(",", ".")` on the character list. -/
def commaToDotL (l : List Char) : List Char :=
  l.map (fun c => if c = ',' then '.' else c)

/-- Python `str.strip()`. -/
def pyStripL (l : List Char) : List Char :=
  ((l.dropWhile isSpaceC).reverse.dropWhile isSpaceC).reverse

def pyStrip (s : String) : String := String.mk (pyStripL s.data)

/-- `float(s.replace(",", ".").strip())` with the `except ValueError:
note = 0` fallback from `_extract_courses` / `_extract_ue_courses`. -/
def pyFloatOrZero (s : String) : ℚ :=
  (parseFloatL? (pyStripL (commaToDotL s.data))).getD 0

/-- Python `haystack.find(needle, start)`-style search: smallest index
`i ≥ start` at which `needle` occurs, if any. -/
def pyFindFrom (hay needle : List Char) (start : Nat) : Option Nat :=
  (List.range (hay.length + 1)).find? (fun i => start ≤ i && needle.isPrefixOf (hay.drop i))

/-- Substring test, Python `sub in s`. -/
def containsSubL (hay sub : List Char) : Bool := (pyFindFrom hay sub 0).isSome

def containsSub (hay sub : String) : Bool := containsSubL hay.data sub.data

/-- One extracted UE/course entry, the dict appended by
`_extract_courses` (`ue`, `cours`, `note`, `est_ue`). -/
structure Course where
  ue : String
  cours : String
  note : ℚ
  est_ue : Nat
deriving DecidableEq

/-- `_extract_ue_courses(notes_block, ue_name)`: delimit the section of
this unit (from the first occurrence of `ue_name` to the next literal
"UE", or the end), then collect the course-pattern matches in it,
discarding stray header remnants. The `.getD 0` branch of the first
`find` is unreachable in the source (the stripped unit name always
occurs in the block it was captured from). -/
def extract_ue_courses (notes_block : String) (ue_name : String) : List Course :=
  let hay := notes_block.data
  let ue_start := (pyFindFrom hay ue_name.data 0).getD 0
  let next_ue := (pyFindFrom hay ['U', 'E'] (ue_start + ue_name.data.length)).getD hay.length
  let ue_section := (hay.drop ue_start).take (next_ue - ue_start)
  (courseFindAll ue_section).filterMap (fun pr =>
    let nm := pyStripL pr.1
    if containsSubL nm ("Note/Barème".data) || containsSubL nm ("Note :".data) then none
    else some ⟨ue_name, String.mk nm, pyFloatOrZero (String.mk pr.2), 0⟩)

/-- The entries emitted for one unit-pattern match: the unit entry
itself (course name = unit name, `est_ue = 1`) followed by the courses
of its section. -/
def ueGroup (notes_block : String) (pr : String × String) : List Course :=
  let ue_name := pyStrip pr.1
  ⟨ue_name, ue_name, pyFloatOrZero pr.2, 1⟩ :: extract_ue_courses notes_block ue_name

/-- `_extract_courses(notes_block)`: the concatenated groups of all
unit-pattern matches, in match order. -/
def extract_courses (notes_block : String) : List Course :=
  (ueFindAll notes_block).foldl (fun acc pr => acc ++ ueGroup notes_block pr) []

/-- Consume the literal characters `lit` at the head of `cs`. -/
def dropLit (lit cs : List Char) : Option (List Char) :=
  if lit.isPrefixOf cs then some (cs.drop lit.length) else none

/-- Consume exactly `n` digits (`\d{n}`). -/
def takeNDigits : Nat → List Char → Option (List Char × List Char)
  | 0, cs => some ([], cs)
  | _ + 1, [] => none
  | n + 1, c :: cs =>
    if isDigitC c then (takeNDigits n cs).map (fun pr => (c :: pr.1, pr.2)) else none

/-- One attempt to match `Année universitaire (\d{4}/\d{4})` at the head
of `cs`, returning group 1. -/
def matchAnneeHead (cs : List Char) : Option (List Char) := do
  let r ← dropLit ("Année universitaire ".data) cs
  let (d1, r1) ← takeNDigits 4 r
  let r2 ← dropLit ['/'] r1
  let (d2, _) ← takeNDigits 4 r2
  pure (d1 ++ '/' :: d2)

/-- `re.search` scan for the full academic-year pattern: leftmost match. -/
def searchAnnee : List Char → Option (List Char)
  | [] => none
  | c :: cs =>
    match matchAnneeHead (c :: cs) with
    | some g => some g
    | none => searchAnnee cs

/-- One attempt to match `Session\s+S\d+\s+(\d{4}/\d{2})` at the head of
`cs`, returning group 1 (always 7 characters). -/
def matchSessionHead (cs : List Char) : Option (List Char) := do
  let r ← dropLit ("Session".data) cs
  let ws := r.takeWhile isSpaceC
  if ws.isEmpty then none else
  let r1 ← dropLit ['S'] (r.dropWhile isSpaceC)
  let ds := r1.takeWhile isDigitC
  if ds.isEmpty then none else
  let r2 := r1.dropWhile isDigitC
  let ws2 := r2.takeWhile isSpaceC
  if ws2.isEmpty then none else
  let (d1, r3) ← takeNDigits 4 (r2.dropWhile isSpaceC)
  let r4 ← dropLit ['/'] r3
  let (d2, _) ← takeNDigits 2 r4
  pure (d1 ++ '/' :: d2)

/-- `re.search` scan for the abbreviated session-year pattern. -/
def searchSession : List Char → Option (List Char)
  | [] => none
  | c :: cs =>
    match matchSessionHead (c :: cs) with
    | some g => some g
    | none => searchSession cs

/-- The academic-year field of `_extract_parcours_info` (lines 171-184):
the first full `Année universitaire YYYY/YYYY` match with `/` replaced
by `-`; otherwise the first `Session S<n> YYYY/YY` match normalised by
prefixing "20" to the short end year; otherwise the placeholder default
"2022-2023" from the initial dict.  (The track and semester fields of
the same function are extracted by an independent pattern and are not
needed by the claims.) -/
def extract_parcours_annee (content : String) : String :=
  match searchAnnee content.data with
  | some g => String.mk (g.map (fun c => if c = '/' then '-' else c))
  | none =>
    match searchSession content.data with
    | some g =>
      if g.length = 7 then
        String.mk (g.take 4) ++ "-" ++ ("20" ++ String.mk (g.drop 5))
      else "2022-2023"
    | none => "2022-2023"

/-! ## The persistent store and the import transaction manager -/

/-- A row of the `etudiants` table. -/
structure Etudiant where
  id : Nat
  nom : String
  prenom : String
  numero_etudiant : String
  parcours : String
  annee : String
  semestre : String
deriving DecidableEq

/-- A row of the `notes` table. -/
structure NoteRow where
  id : Nat
  etudiant_id : Nat
  ue : String
  cours : String
  note : ℚ
  est_ue : Nat
deriving DecidableEq

/-- The SQLite store: the two tables plus their AUTOINCREMENT counters. -/
structure DB where
  etudiants : List Etudiant
  notes : List NoteRow
  nextEtudiantId : Nat
  nextNoteId : Nat
deriving DecidableEq

/-- The 5-column identity key of the `UNIQUE(nom, prenom, parcours,
annee, semestre)` constraint. -/
def etuMatches (nom prenom parcours annee semestre : String) (e : Etudiant) : Bool :=
  e.nom == nom && e.prenom == prenom && e.parcours == parcours &&
    e.annee == annee && e.semestre == semestre

/-- `INSERT OR IGNORE INTO etudiants ...`: skipped when a row with the
same identity key exists, otherwise appended with a fresh id. -/
def insertEtudiantOrIgnore (db : DB) (nom prenom numero parcours annee semestre : String) : DB :=
  if db.etudiants.any (etuMatches nom prenom parcours annee semestre) then db
  else
    { db with
      etudiants := db.etudiants ++ [⟨db.nextEtudiantId, nom, prenom, numero, parcours, annee, semestre⟩],
      nextEtudiantId := db.nextEtudiantId + 1 }

/-- `SELECT id FROM etudiants WHERE ...` followed by `fetchone()`. -/
def selectEtudiantId (db : DB) (nom prenom parcours annee semestre : String) : Option Nat :=
  (db.etudiants.find? (etuMatches nom prenom parcours annee semestre)).map (fun e => e.id)

/-- The `UNIQUE(etudiant_id, cours)` key of the `notes` table. -/
def hasNote (db : DB) (eid : Nat) (cours : String) : Bool :=
  db.notes.any (fun n => n.etudiant_id == eid && n.cours == cours)

/-- `INSERT OR IGNORE INTO notes ...`. -/
def insertNoteOrIgnore (db : DB) (eid : Nat) (ue cours : String) (note : ℚ) (est : Nat) : DB :=
  if hasNote db eid cours then db
  else
    { db with
      notes := db.notes ++ [⟨db.nextNoteId, eid, ue, cours, note, est⟩],
      nextNoteId := db.nextNoteId + 1 }

/-- The note-insert loop of one student. -/
def insertNotes (db : DB) (eid : Nat) (cours : List Course) : DB :=
  cours.foldl (fun d c => insertNoteOrIgnore d eid c.ue c.cours c.note c.est_ue) db

/-- Document-level metadata, the `parcours` dict of `parse_apogee_file`. -/
structure ParcoursInfo where
  parcours : String
  semestre : String
  annee : String
deriving DecidableEq

/-- One parsed student, the dict returned by `_process_student_block`. -/
structure StudentData where
  numero_etudiant : String
  nom : String
  prenom : String
  cours : List Course
deriving DecidableEq

/-- `_process_student_block(block)`: split the 4-tuple produced by the
segmentation regex, strip the identity fields, and build the grade
tree; the `except` branch (returning `None`) is unreachable on the
regex's 4-tuples, so the result is always `some`. -/
def process_student_block (block : String × String × String × String) : Option StudentData :=
  some ⟨pyStrip block.2.2.1, pyStrip block.1, pyStrip block.2.1, extract_courses block.2.2.2⟩

deriving instance DecidableEq for Except

/-- Exceptions escaping an operation, as seen by the caller. -/
inductive PyError where
  /-- `sqlite3.Error` raised by `get_connection` and re-raised. -/
  | connError
  /-- `TypeError` from subscripting a `None` returned by `fetchone()`
  (not caught by `except sqlite3.IntegrityError`). -/
  | typeError
  /-- `UnboundLocalError` raised inside an `except`/`finally` handler
  that reads the never-assigned `conn` variable. -/
  | unboundLocal
deriving DecidableEq

/-- Fault model for the external SQLite driver: `faults i = true` means
the driver raises `sqlite3.IntegrityError` somewhere inside student
`i`'s savepoint scope, upon which the source executes
`ROLLBACK TO import_student`, discarding every row of that student and
continuing with the next one.  (With the source's `INSERT OR IGNORE`
statements and no enforced foreign keys the driver in fact never
raises; `noFaults` is that behaviour.) -/
def noFaults : Nat → Bool := fun _ => false

/-- The per-student loop of `import_apogee_data` (lines 376-444):
savepoint, identity insert, id lookup, note inserts, release/commit on
success, rollback-to-savepoint and continue on `IntegrityError`.
`i` numbers the students for the fault oracle; `cnt` is
`students_imported`. -/
def importLoop (faults : Nat → Bool) (p : ParcoursInfo) :
    List StudentData → Nat → DB → Nat → Except PyError (DB × Nat)
  | [], _, db, cnt => .ok (db, cnt)
  | s :: rest, i, db, cnt =>
    if faults i then
      importLoop faults p rest (i + 1) db cnt
    else
      let db1 := insertEtudiantOrIgnore db s.nom s.prenom s.numero_etudiant p.parcours p.annee p.semestre
      match selectEtudiantId db1 s.nom s.prenom p.parcours p.annee p.semestre with
      | none => .error .typeError
      | some eid => importLoop faults p rest (i + 1) (insertNotes db1 eid s.cours) (cnt + 1)

/-- `import_apogee_data` after parsing: returns 0 before touching the
connection when no student was extracted, surfaces the connection
error otherwise, and else runs the per-student loop.  The result pairs
the final store with the returned `students_imported` count. -/
def import_apogee_data (connFails : Bool) (faults : Nat → Bool) (p : ParcoursInfo)
    (students : List StudentData) (db : DB) : Except PyError (DB × Nat) :=
  if students.isEmpty then .ok (db, 0)
  else if connFails then .error .connError
  else importLoop faults p students 0 db 0

/-- Insertion sort by an arbitrary `le`, modelling `ORDER BY` with
SQLite's BINARY collation (codepoint order on our strings). -/
def insertSorted {α : Type} (le : α → α → Bool) (x : α) : List α → List α
  | [] => [x]
  | y :: ys => if le x y then x :: y :: ys else y :: insertSorted le x ys

def sortListBy {α : Type} (le : α → α → Bool) : List α → List α
  | [] => []
  | x :: xs => insertSorted le x (sortListBy le xs)

/-- Remove adjacent duplicates of a sorted list: `SELECT DISTINCT`. -/
def dedupAdj : List String → List String
  | [] => []
  | [x] => [x]
  | x :: y :: ys => if x == y then dedupAdj (y :: ys) else x :: dedupAdj (y :: ys)

/-- `get_available_years` (lines 492-507): `SELECT DISTINCT annee FROM
etudiants ORDER BY annee`; every exception, including the connection
failure, is caught and turned into `[]`, so the result is always an
ordinary return (`Except.ok`), never a surfaced error. -/
def get_available_years (connFails : Bool) (db : DB) : Except PyError (List String) :=
  if connFails then .ok []
  else .ok (dedupAdj (sortListBy (fun a b => a ≤ b) (db.etudiants.map (fun e => e.annee))))

/-- An optional equality filter on one column, the `conditions` /
`params` pairs every query method of the source builds from its
optional arguments. -/
def optEq (filter : Option String) (column : String) : Bool :=
  match filter with
  | some v => column == v
  | none => true

/-- `get_available_parcours(year)`: `SELECT DISTINCT parcours FROM
etudiants [WHERE annee = ?] ORDER BY parcours`; every exception,
including the connection failure, is caught and turned into `[]`. -/
def get_available_parcours (connFails : Bool) (year : Option String) (db : DB) :
    Except PyError (List String) :=
  if connFails then .ok []
  else .ok (dedupAdj (sortListBy (fun a b => a ≤ b)
    ((db.etudiants.filter (fun e => optEq year e.annee)).map (fun e => e.parcours))))

/-- `get_available_semestres(year, parcours)`: `SELECT DISTINCT
semestre FROM etudiants [WHERE ...] ORDER BY semestre`; exceptions are
caught and turned into `[]`. -/
def get_available_semestres (connFails : Bool) (year parcours : Option String) (db : DB) :
    Except PyError (List String) :=
  if connFails then .ok []
  else .ok (dedupAdj (sortListBy (fun a b => a ≤ b)
    ((db.etudiants.filter (fun e => optEq year e.annee && optEq parcours e.parcours)).map
      (fun e => e.semestre))))

/-- `get_students(year, parcours, semestre)`: the identity columns of
the matching students, `ORDER BY nom, prenom` (modelled as the full
rows; the source projects out the `id` column); exceptions are caught
and turned into an empty frame. -/
def get_students (connFails : Bool) (year parcours semestre : Option String) (db : DB) :
    Except PyError (List Etudiant) :=
  if connFails then .ok []
  else .ok (sortListBy
    (fun e1 e2 => e1.nom < e2.nom || (e1.nom == e2.nom && e1.prenom ≤ e2.prenom))
    (db.etudiants.filter (fun e =>
      optEq year e.annee && optEq parcours e.parcours && optEq semestre e.semestre)))

/-- `get_available_ues(year, parcours, semestre)`: `SELECT DISTINCT ue
FROM notes n JOIN etudiants e ON n.etudiant_id = e.id WHERE
n.est_ue = 1 [AND ...] ORDER BY ue`; exceptions are caught and turned
into `[]`. -/
def get_available_ues (connFails : Bool) (year parcours semestre : Option String) (db : DB) :
    Except PyError (List String) :=
  if connFails then .ok []
  else .ok (dedupAdj (sortListBy (fun a b => a ≤ b)
    ((db.notes.filter (fun n => n.est_ue == 1 && db.etudiants.any (fun e =>
      e.id == n.etudiant_id &&
        optEq year e.annee && optEq parcours e.parcours && optEq semestre e.semestre))).map
      (fun n => n.ue))))

/-- `get_available_courses(year, parcours, semestre, ue)`: `SELECT
DISTINCT cours FROM notes n JOIN etudiants e ON n.etudiant_id = e.id
WHERE n.est_ue = 0 [AND ...] ORDER BY cours`; exceptions are caught
and turned into `[]`. -/
def get_available_courses (connFails : Bool) (year parcours semestre ue : Option String)
    (db : DB) : Except PyError (List String) :=
  if connFails then .ok []
  else .ok (dedupAdj (sortListBy (fun a b => a ≤ b)
    ((db.notes.filter (fun n => n.est_ue == 0 && db.etudiants.any (fun e =>
      e.id == n.etudiant_id &&
        optEq year e.annee && optEq parcours e.parcours && optEq semestre e.semestre) &&
      optEq ue n.ue)).map
      (fun n => n.cours))))

/-- `get_student_data(nom, prenom, year, parcours, semestre)`: the
students-notes join restricted to one student's name plus the optional
filters (no `ORDER BY` in the source); exceptions are caught and
turned into an empty frame. -/
def get_student_data (connFails : Bool) (nom prenom : String)
    (year parcours semestre : Option String) (db : DB) :
    Except PyError (List (Etudiant × NoteRow)) :=
  if connFails then .ok []
  else
    .ok (db.etudiants.flatMap (fun e =>
      if e.nom == nom && e.prenom == prenom &&
          optEq year e.annee && optEq parcours e.parcours && optEq semestre e.semestre
      then (db.notes.filter (fun n => n.etudiant_id == e.id)).map (fun n => (e, n))
      else []))

/-- `export_to_dataframe`: the students-notes join; every exception is
caught and turned into an empty frame. -/
def export_to_dataframe (connFails : Bool) (db : DB) : Except PyError (List (Etudiant × NoteRow)) :=
  if connFails then .ok []
  else
    .ok (db.etudiants.flatMap (fun e =>
      (db.notes.filter (fun n => n.etudiant_id == e.id)).map (fun n => (e, n))))

/-- The filter predicate built from the criteria dict of `delete_data`
(in the source's condition order: annee, parcours, semestre). -/
def critMatches (annee parcours semestre : Option String) (e : Etudiant) : Bool :=
  (match annee with | some a => e.annee == a | none => true) &&
  (match parcours with | some pc => e.parcours == pc | none => true) &&
  (match semestre with | some s => e.semestre == s | none => true)

/-- `delete_data` (lines 614-683): select the matching student ids,
delete their notes (`etudiant_id IN (...)`), delete the students, and
return the student rowcount; with no criteria or no matching student,
delete nothing and return 0.  When the connection cannot be opened the
`except`/`finally` handlers read the unassigned `conn` variable, so an
`UnboundLocalError` escapes instead of the original error. -/
def delete_data (connFails : Bool) (annee parcours semestre : Option String) (db : DB) :
    Except PyError (DB × Nat) :=
  if connFails then .error .unboundLocal
  else if annee.isNone && parcours.isNone && semestre.isNone then .ok (db, 0)
  else
    let ids := (db.etudiants.filter (critMatches annee parcours semestre)).map (fun e => e.id)
    if ids.isEmpty then .ok (db, 0)
    else
      let notes' := db.notes.filter (fun n => !(ids.contains n.etudiant_id))
      let etudiants' := db.etudiants.filter (fun e => !(critMatches annee parcours semestre e))
      .ok ({ db with etudiants := etudiants', notes := notes' }, ids.length)

/-! ## Predicates used to state the grade-list invariants -/

/-- `checkSeen seen l` holds when every non-unit entry of `l` is tagged
with a unit code already emitted (as an `est_ue = 1` entry) before it,
`seen` being the unit codes emitted so far. -/
def checkSeen : List String → List Course → Bool
  | _, [] => true
  | seen, c :: rest =>
    if c.est_ue = 1 then checkSeen (c.ue :: seen) rest
    else seen.contains c.ue && checkSeen seen rest

/-- Unit codes emitted by `l`, newest first, extending `seen`. -/
def seenAfter : List String → List Course → List String
  | seen, [] => seen
  | seen, c :: rest => seenAfter (if c.est_ue = 1 then c.ue :: seen else seen) rest

/-- Every unit entry names itself: `courseName = unitCode`. -/
def unitsSelfNamed (l : List Course) : Bool :=
  l.all (fun c => c.est_ue ≠ 1 || c.cours == c.ue)

/-- The claim's strong ordering property: every `est_ue = 1` entry
precedes every non-unit entry tagged with its unit code. -/
def unitsPrecedeTagged (l : List Course) : Bool :=
  (List.range l.length).all (fun i =>
    (List.range l.length).all (fun j =>
      match l.get? i, l.get? j with
      | some u, some c =>
        if u.est_ue = 1 && !(c.est_ue = 1) && c.ue == u.ue then decide (i < j) else true
      | _, _ => true))

/-- The full grade-list property asserted by the ordering claim:
units precede all entries tagged with their code, non-units reference
an earlier unit, units name themselves. -/
def gradeListClaim (l : List Course) : Bool :=
  unitsPrecedeTagged l && checkSeen [] l && unitsSelfNamed l

/-- Shape of a captured score string: nonempty digits, one dot or
comma, nonempty digits. -/
def ScoreShape (sc : List Char) : Prop :=
  ∃ d1 sep d2, sc = d1 ++ sep :: d2 ∧ d1 ≠ [] ∧ d1.all isDigitC = true ∧
    (sep = '.' ∨ sep = ',') ∧ d2 ≠ [] ∧ d2.all isDigitC = true

/-- `d2` extends `d1` by appended rows only (how every successful store
operation of the import path grows the tables). -/
def dbSub (d1 d2 : DB) : Prop :=
  (∃ l, d2.etudiants = d1.etudiants ++ l) ∧ (∃ l, d2.notes = d1.notes ++ l)

/-- All of a student's rows are present: the identity row resolves to
some id and every course of the student is stored under that id. -/
def studentSaturated (p : ParcoursInfo) (db : DB) (s : StudentData) : Prop :=
  ∃ eid, selectEtudiantId db s.nom s.prenom p.parcours p.annee p.semestre = some eid ∧
    ∀ c ∈ s.cours, hasNote db eid c.cours = true

/-- The students whose savepoint scope does not fault, in order
(student `i` in the batch is numbered `i` by the fault oracle). -/
def survivors (faults : Nat → Bool) : Nat → List StudentData → List StudentData
  | _, [] => []
  | i, s :: rest =>
    if faults i then survivors faults (i + 1) rest
    else s :: survivors faults (i + 1) rest

/-! ## Concrete fixtures for witnesses and counterexamples -/

def pW : ParcoursInfo := ⟨"M1 API", "7", "2022-2023"⟩

def stW : StudentData := ⟨"21800000", "DOE", "Jane", [⟨"UE1 X", "UE1 X", 14, 1⟩]⟩

def dbEmpty : DB := ⟨[], [], 1, 1⟩

/-- The store after importing `stW` into `dbEmpty` under `pW`. -/
def dbW1 : DB :=
  ⟨[⟨1, "DOE", "Jane", "21800000", "M1 API", "2022-2023", "7"⟩],
   [⟨1, 1, "UE1 X", "UE1 X", 14, 1⟩], 2, 2⟩

/-- A store holding one student of year 2022-2023, for the
connectivity-failure counterexample. -/
def dbY : DB := ⟨[⟨1, "DOE", "Jane", "21800000", "M1 API", "2022-2023", "7"⟩], [], 2, 1⟩

/-! ## Structural lemmas about the grade-tree builder -/

theorem extract_ue_courses_mem {nb nm : String} {c : Course}
    (h : c ∈ extract_ue_courses nb nm) : c.ue = nm ∧ c.est_ue = 0 := by
  simp only [extract_ue_courses, List.mem_filterMap] at h
  obtain ⟨pr, -, hpr⟩ := h
  split at hpr
  · exact absurd hpr (by simp)
  · injection hpr with h2
    subst h2
    exact ⟨rfl, rfl⟩

theorem checkSeen_append (l1 l2 : List Course) : ∀ seen,
    checkSeen seen (l1 ++ l2) = (checkSeen seen l1 && checkSeen (seenAfter seen l1) l2) := by
  induction l1 with
  | nil => intro seen; simp [checkSeen, seenAfter]
  | cons c rest ih =>
    intro seen
    by_cases h : c.est_ue = 1
    · simp [checkSeen, seenAfter, h, ih]
    · simp [checkSeen, seenAfter, h, ih, Bool.and_assoc]

theorem checkSeen_courses {l : List Course} {seen : List String}
    (h : ∀ c ∈ l, c.est_ue = 0 ∧ seen.contains c.ue = true) : checkSeen seen l = true := by
  induction l with
  | nil => rfl
  | cons c rest ih =>
    obtain ⟨h0, hc⟩ := h c (by simp)
    simp only [checkSeen, h0]
    simp only [Nat.zero_ne_one, if_false, hc, Bool.true_and]
    exact ih (fun c hc => h c (by simp [hc]))

theorem checkSeen_ueGroup (nb : String) (pr : String × String) (seen : List String) :
    checkSeen seen (ueGroup nb pr) = true := by
  simp only [ueGroup, checkSeen, if_pos rfl]
  apply checkSeen_courses
  intro c hc
  obtain ⟨h1, h2⟩ := extract_ue_courses_mem hc
  refine ⟨h2, ?_⟩
  simp [h1, List.contains, List.elem_iff]

theorem checkSeen_extract_foldl (nb : String) (prs : List (String × String)) :
    ∀ acc seen, checkSeen seen acc = true →
      checkSeen seen (prs.foldl (fun acc pr => acc ++ ueGroup nb pr) acc) = true := by
  induction prs with
  | nil => intro acc seen h; simpa using h
  | cons pr rest ih =>
    intro acc seen h
    simp only [List.foldl_cons]
    apply ih
    rw [checkSeen_append]
    simp [h, checkSeen_ueGroup]

theorem unitsSelfNamed_ueGroup (nb : String) (pr : String × String) :
    unitsSelfNamed (ueGroup nb pr) = true := by
  simp only [unitsSelfNamed, ueGroup, List.all_cons, Bool.and_eq_true, List.all_eq_true]
  constructor
  · simp
  · intro c hc
    have h2 := (extract_ue_courses_mem hc).2
    simp [h2]

theorem unitsSelfNamed_extract_foldl (nb : String) (prs : List (String × String)) :
    ∀ acc, unitsSelfNamed acc = true →
      unitsSelfNamed (prs.foldl (fun acc pr => acc ++ ueGroup nb pr) acc) = true := by
  induction prs with
  | nil => intro acc h; simpa using h
  | cons pr rest ih =>
    intro acc h
    simp only [List.foldl_cons]
    apply ih
    simp only [unitsSelfNamed, List.all_append, Bool.and_eq_true] at h ⊢
    exact ⟨h, unitsSelfNamed_ueGroup nb pr⟩

/-! ## Score values needed by the concrete extraction theorems -/

theorem pyFloat_14_5 : pyFloatOrZero "14,5" = 29/2 := by
  have h0 : pyStripL (commaToDotL ("14,5".data)) = ['1', '4', '.', '5'] := by decide
  unfold pyFloatOrZero
  rw [h0]
  show (some ((digitsToNat ['1', '4'] : ℚ) +
    (digitsToNat ['5'] : ℚ) / ((10 : ℚ) ^ (['5'] : List Char).length))).getD 0 = 29/2
  have h1 : digitsToNat ['1', '4'] = 14 := by decide
  have h2 : digitsToNat ['5'] = 5 := by decide
  rw [h1, h2]
  norm_num

theorem pyFloat_12_0 : pyFloatOrZero "12,0" = 12 := by
  have h0 : pyStripL (commaToDotL ("12,0".data)) = ['1', '2', '.', '0'] := by decide
  unfold pyFloatOrZero
  rw [h0]
  show (some ((digitsToNat ['1', '2'] : ℚ) +
    (digitsToNat ['0'] : ℚ) / ((10 : ℚ) ^ (['0'] : List Char).length))).getD 0 = 12
  have h1 : digitsToNat ['1', '2'] = 12 := by decide
  have h2 : digitsToNat ['0'] = 0 := by decide
  rw [h1, h2]
  norm_num

/-! ## Claim C1 -/

/-- C1 (counterexample): on the claim's own notes text, with the course
line scored "12/20", the builder emits exactly one entry — the unit,
whose code and name are the full capture "UE401 Systèmes" rather than
"UE401" — and no entry at all for "Algorithmique", because the course
pattern `(\d+[\.,]\d+)\s*/20` requires a decimal separator that "12/20"
lacks. -/
theorem c1_claim_counterexample :
    extract_courses "UE401 Systèmes 14,5/20\nAlgorithmique 12/20" =
      [⟨"UE401 Systèmes", "UE401 Systèmes", 29/2, 1⟩] ∧
    (extract_courses "UE401 Systèmes 14,5/20\nAlgorithmique 12/20").all
      (fun c => c.cours ≠ "Algorithmique" && c.ue ≠ "UE401") = true := by
  have h0 : extract_courses "UE401 Systèmes 14,5/20\nAlgorithmique 12/20" =
      [⟨"UE401 Systèmes", "UE401 Systèmes", pyFloatOrZero "14,5", 1⟩] := rfl
  rw [h0, pyFloat_14_5]
  exact ⟨rfl, by decide⟩

/-- C1 (amended): for the notes text whose unit line "UE401 Systèmes" is
scored "14,5/20" and whose course line "Algorithmique" is scored
"12,0/20" (decimal separator present, as the patterns require), the
builder returns exactly one unit entry with unitCode = courseName =
"UE401 Systèmes" (the full capture), score 14.5, isUnit, and one course
entry tagged with that unit, named "Algorithmique", score 12.0. -/
theorem c1_amended :
    extract_courses "UE401 Systèmes 14,5/20\nAlgorithmique 12,0/20" =
      [⟨"UE401 Systèmes", "UE401 Systèmes", 29/2, 1⟩,
       ⟨"UE401 Systèmes", "Algorithmique", 12, 0⟩] := by
  have h0 : extract_courses "UE401 Systèmes 14,5/20\nAlgorithmique 12,0/20" =
      [⟨"UE401 Systèmes", "UE401 Systèmes", pyFloatOrZero "14,5", 1⟩,
       ⟨"UE401 Systèmes", "Algorithmique", pyFloatOrZero "12,0", 0⟩] := rfl
  rw [h0, pyFloat_14_5, pyFloat_12_0]

/-! ## Claim C4 -/

/-- C4 (counterexample): on a notes text whose unit name occurs twice,
the unit group is emitted twice, so the second `isUnit` entry follows
course entries tagged with its own code: the claimed ordering property
(every unit entry precedes all the non-unit entries tagged with its
code) fails on the returned list. -/
theorem c4_claim_counterexample :
    gradeListClaim (extract_courses "UE1 a 1,5/20\nx 2,5/20\nUE1 a 3,5/20") = false := by
  decide

/-- C4 (amended): for every notes text, every non-unit entry of the
returned list references a unit code emitted as an `isUnit` entry
earlier in the list, and every `isUnit` entry has courseName equal to
its unitCode.  (The stronger conjunct — that each `isUnit` entry
precedes all non-unit entries with its code — fails when a unit name
recurs; see the counterexample.) -/
theorem c4_amended (notes_block : String) :
    checkSeen [] (extract_courses notes_block) = true ∧
    unitsSelfNamed (extract_courses notes_block) = true := by
  constructor
  · exact checkSeen_extract_foldl notes_block (ueFindAll notes_block) [] [] rfl
  · exact unitsSelfNamed_extract_foldl notes_block (ueFindAll notes_block) [] rfl

/-! ## Claim C5 -/

/-- C5 (counterexample): containing the header "Année universitaire
2022/2023" does not force academicYear = "2022-2023": `re.search`
returns the leftmost match, so an earlier year header wins. -/
theorem c5_claim_counterexample :
    containsSub "Année universitaire 2000/2001 Année universitaire 2022/2023"
      "Année universitaire 2022/2023" = true ∧
    extract_parcours_annee "Année universitaire 2000/2001 Année universitaire 2022/2023" ≠
      "2022-2023" := by
  constructor
  · decide
  · decide

/-- C5 (amended): when the *leftmost* full-pattern match of the document
is "Année universitaire 2022/2023" the extracted academicYear is
"2022-2023"; and when no full pattern matches and the leftmost
abbreviated session match captures "2022/23", the extracted
academicYear is again "2022-2023", the end year being normalised by
prefixing "20". -/
theorem c5_amended (content : String) :
    (searchAnnee content.data = some ("2022/2023".data) →
      extract_parcours_annee content = "2022-2023") ∧
    (searchAnnee content.data = none → searchSession content.data = some ("2022/23".data) →
      extract_parcours_annee content = "2022-2023") := by
  constructor
  · intro h
    unfold extract_parcours_annee
    rw [h]
    rfl
  · intro h1 h2
    unfold extract_parcours_annee
    rw [h1, h2]
    rfl

/-- C5 witness: both hypotheses of the amended claim realised on
concrete documents. -/
theorem c5_witness :
    extract_parcours_annee "Année universitaire 2022/2023" = "2022-2023" ∧
    extract_parcours_annee "Session S1 2022/23" = "2022-2023" := by
  constructor
  · exact (c5_amended "Année universitaire 2022/2023").1 (by decide)
  · exact (c5_amended "Session S1 2022/23").2 (by decide) (by decide)

/-! ## Score-shape lemmas (claim C9) -/

theorem isDigit_not_space {a : Char} (h : isDigitC a = true) : isSpaceC a = false := by
  simp only [isDigitC, Bool.and_eq_true, decide_eq_true_eq] at h
  simp only [isSpaceC, Bool.or_eq_false_iff, decide_eq_false_iff_not]
  refine ⟨⟨⟨⟨⟨?_, ?_⟩, ?_⟩, ?_⟩, ?_⟩, ?_⟩ <;> rintro rfl <;> revert h <;> decide

theorem splitDigits_some {l d r : List Char} (h : splitDigits l = some (d, r)) :
    d ≠ [] ∧ d.all isDigitC = true := by
  unfold splitDigits at h
  split at h
  · exact absurd h (by simp)
  · rename_i hne
    simp only [Option.some.injEq, Prod.mk.injEq] at h
    obtain ⟨h1, -⟩ := h
    subst h1
    refine ⟨by simpa [List.isEmpty_iff] using hne, ?_⟩
    simp only [List.all_eq_true]
    exact fun a ha => List.mem_takeWhile_imp ha

theorem matchScoreDigits_shape {r1 sc rest : List Char}
    (h : matchScoreDigits r1 = some (sc, rest)) : ScoreShape sc := by
  unfold matchScoreDigits at h
  rw [Option.bind_eq_some] at h
  obtain ⟨⟨d1, r2⟩, hs1, h⟩ := h
  cases r2 with
  | nil => exact absurd h (by simp)
  | cons sep r3 =>
    replace h : (if sep = '.' || sep = ',' then
        (splitDigits r3).bind (fun d2r4 =>
          match d2r4.2.dropWhile isSpaceC with
          | '/' :: '2' :: '0' :: rest => some (d1 ++ sep :: d2r4.1, rest)
          | _ => none)
      else none) = some (sc, rest) := h
    by_cases hsep : (sep = '.' || sep = ',') = true
    · rw [if_pos hsep] at h
      rw [Option.bind_eq_some] at h
      obtain ⟨⟨d2, r4⟩, hs2, h⟩ := h
      replace h : (match r4.dropWhile isSpaceC with
          | '/' :: '2' :: '0' :: rest => some (d1 ++ sep :: d2, rest)
          | _ => none) = some (sc, rest) := h
      split at h
      · simp only [Option.some.injEq, Prod.mk.injEq] at h
        obtain ⟨hsc, -⟩ := h
        obtain ⟨h1ne, h1d⟩ := splitDigits_some hs1
        obtain ⟨h2ne, h2d⟩ := splitDigits_some hs2
        refine ⟨d1, sep, d2, hsc.symm, h1ne, h1d, ?_, h2ne, h2d⟩
        simpa [decide_eq_true_eq] using hsep
      · exact absurd h (by simp)
    · rw [if_neg hsep] at h
      exact absurd h (by simp)

theorem matchScoreTail_shape {cs sc rest : List Char}
    (h : matchScoreTail cs = some (sc, rest)) : ScoreShape sc := by
  unfold matchScoreTail at h
  split at h
  · exact absurd h (by simp)
  · exact matchScoreDigits_shape h

theorem tryUESplits_shape {run r3 : List Char} :
    ∀ {k g sc rest}, tryUESplits run r3 k = some (g, sc, rest) → ScoreShape sc := by
  intro k
  induction k with
  | zero =>
    intro g sc rest h
    unfold tryUESplits at h
    cases hm : matchScoreTail (run ++ r3) with
    | none => rw [hm] at h; exact absurd h (by simp)
    | some pr =>
      rw [hm] at h
      simp only [Option.some.injEq, Prod.mk.injEq] at h
      obtain ⟨-, h2, -⟩ := h
      rw [← h2]
      exact matchScoreTail_shape hm
  | succ k ih =>
    intro g sc rest h
    unfold tryUESplits at h
    cases hm : matchScoreTail (run.drop (k + 1) ++ r3) with
    | none => rw [hm] at h; exact ih h
    | some pr =>
      rw [hm] at h
      simp only [Option.some.injEq, Prod.mk.injEq] at h
      obtain ⟨-, h2, -⟩ := h
      rw [← h2]
      exact matchScoreTail_shape hm

theorem matchUEHead_shape {cs g sc rest : List Char}
    (h : matchUEHead cs = some (g, sc, rest)) : ScoreShape sc := by
  unfold matchUEHead at h
  split at h
  · rename_i r1
    rw [Option.bind_eq_some] at h
    obtain ⟨⟨ds, r2⟩, -, h⟩ := h
    replace h : (tryUESplits (r2.takeWhile ueNameC) (r2.dropWhile ueNameC)
        (r2.takeWhile ueNameC).length).map
          (fun pr => ('U' :: 'E' :: (ds ++ pr.1), pr.2.1, pr.2.2)) = some (g, sc, rest) := h
    rw [Option.map_eq_some'] at h
    obtain ⟨pr, hpr, heq⟩ := h
    simp only [Prod.mk.injEq] at heq
    obtain ⟨-, h2, -⟩ := heq
    rw [← h2]
    exact tryUESplits_shape hpr
  all_goals exact absurd h (by simp)

theorem ueFindAllAux_shape :
    ∀ fuel (cs : List Char) {nm sc : List Char}, (nm, sc) ∈ ueFindAllAux fuel cs → ScoreShape sc := by
  intro fuel
  induction fuel with
  | zero => intro cs nm sc h; simp [ueFindAllAux] at h
  | succ n ih =>
    intro cs nm sc h
    cases cs with
    | nil => simp [ueFindAllAux] at h
    | cons c cs' =>
      rw [ueFindAllAux] at h
      cases hm : matchUEHead (c :: cs') with
      | none => rw [hm] at h; exact ih cs' h
      | some pr =>
        rw [hm] at h
        rcases List.mem_cons.mp h with heq | hmem
        · injection heq with e1 e2
          rw [e2]
          exact matchUEHead_shape hm
        · exact ih pr.2.2 hmem

theorem tryCourseLazy_succ (n : Nat) (g1rev cs : List Char) :
    tryCourseLazy (n + 1) g1rev cs =
      match matchScoreTail cs with
      | some pr => some (g1rev.reverse, pr.1, pr.2)
      | none =>
        match cs with
        | [] => none
        | c :: cs' => if c = '\n' then none else tryCourseLazy n (c :: g1rev) cs' := rfl

theorem tryCourseLazy_shape :
    ∀ fuel (g1rev cs : List Char) {g sc rest : List Char},
      tryCourseLazy fuel g1rev cs = some (g, sc, rest) → ScoreShape sc := by
  intro fuel
  induction fuel with
  | zero => intro g1rev cs g sc rest h; simp [tryCourseLazy] at h
  | succ n ih =>
    intro g1rev cs g sc rest h
    rw [tryCourseLazy_succ] at h
    cases hm : matchScoreTail cs with
    | some pr =>
      rw [hm] at h
      replace h : some (g1rev.reverse, pr.1, pr.2) = some (g, sc, rest) := h
      simp only [Option.some.injEq, Prod.mk.injEq] at h
      obtain ⟨-, h2, -⟩ := h
      rw [← h2]
      exact matchScoreTail_shape hm
    | none =>
      rw [hm] at h
      cases cs with
      | nil => exact absurd h (by simp)
      | cons c cs' =>
        replace h : (if c = '\n' then none
            else tryCourseLazy n (c :: g1rev) cs') = some (g, sc, rest) := h
        by_cases hc : c = '\n'
        · rw [if_pos hc] at h
          exact absurd h (by simp)
        · rw [if_neg hc] at h
          exact ih _ _ h

theorem matchCourseHead_shape {cs g sc rest : List Char}
    (h : matchCourseHead cs = some (g, sc, rest)) : ScoreShape sc := by
  unfold matchCourseHead at h
  split at h
  · exact absurd h (by simp)
  · rename_i c cs'
    split at h
    · rw [Option.map_eq_some'] at h
      obtain ⟨pr, hpr, heq⟩ := h
      simp only [Prod.mk.injEq] at heq
      obtain ⟨-, h2, -⟩ := heq
      rw [← h2]
      exact tryCourseLazy_shape _ _ _ hpr
    · exact absurd h (by simp)

theorem courseFindAllAux_shape :
    ∀ fuel (atStart : Bool) (cs : List Char) {nm sc : List Char},
      (nm, sc) ∈ courseFindAllAux fuel atStart cs → ScoreShape sc := by
  intro fuel
  induction fuel with
  | zero => intro b cs nm sc h; simp [courseFindAllAux] at h
  | succ n ih =>
    intro b cs nm sc h
    cases cs with
    | nil => simp [courseFindAllAux] at h
    | cons c cs' =>
      rw [courseFindAllAux] at h
      by_cases hb : b
      · rw [if_pos hb] at h
        cases hm : matchCourseHead (c :: cs') with
        | none => rw [hm] at h; exact ih _ cs' h
        | some pr =>
          rw [hm] at h
          rcases List.mem_cons.mp h with heq | hmem
          · injection heq with e1 e2
            rw [e2]
            exact matchCourseHead_shape hm
          · exact ih _ pr.2.2 hmem
      · rw [if_neg hb] at h
        exact ih _ cs' h

theorem commaToDot_digits {l : List Char} (h : l.all isDigitC = true) : commaToDotL l = l := by
  unfold commaToDotL
  rw [List.all_eq_true] at h
  have : ∀ a ∈ l, (fun c => if c = ',' then '.' else c) a = id a := by
    intro a ha
    have hd := h a ha
    by_cases hc : a = ','
    · subst hc; exact absurd hd (by decide)
    · simp [hc]
  rw [List.map_congr_left this, List.map_id]

theorem dropWhile_eq_self_of_all {p : Char → Bool} {l : List Char}
    (h : ∀ a ∈ l, p a = false) : l.dropWhile p = l := by
  cases l with
  | nil => rfl
  | cons a t =>
    rw [List.dropWhile_cons_of_neg]
    simp [h a (by simp)]

theorem pyStripL_of_no_space {l : List Char} (h : ∀ a ∈ l, isSpaceC a = false) :
    pyStripL l = l := by
  unfold pyStripL
  rw [dropWhile_eq_self_of_all h]
  rw [dropWhile_eq_self_of_all (fun a ha => h a (List.mem_reverse.mp ha))]
  exact List.reverse_reverse l

theorem scoreShape_parse {sc : List Char} (h : ScoreShape sc) :
    ∃ q, parseFloatL? (pyStripL (commaToDotL sc)) = some q := by
  obtain ⟨d1, sep, d2, rfl, h1ne, h1d, hsep, h2ne, h2d⟩ := h
  have hc : commaToDotL (d1 ++ sep :: d2) = d1 ++ '.' :: d2 := by
    unfold commaToDotL
    rw [List.map_append, List.map_cons]
    congr 1
    · exact commaToDot_digits h1d
    · congr 1
      · rcases hsep with rfl | rfl <;> decide
      · exact commaToDot_digits h2d
  rw [hc]
  have hall1 : ∀ a ∈ d1, isDigitC a = true := List.all_eq_true.mp h1d
  have hall2 : ∀ a ∈ d2, isDigitC a = true := List.all_eq_true.mp h2d
  have hnos : ∀ a ∈ d1 ++ '.' :: d2, isSpaceC a = false := by
    intro a ha
    rcases List.mem_append.mp ha with h1 | h1
    · exact isDigit_not_space (hall1 a h1)
    · rcases List.mem_cons.mp h1 with rfl | h1
      · decide
      · exact isDigit_not_space (hall2 a h1)
  rw [pyStripL_of_no_space hnos]
  unfold parseFloatL?
  rw [List.takeWhile_append_of_pos hall1, List.dropWhile_append_of_pos hall1]
  rw [List.takeWhile_cons_of_neg (by decide), List.dropWhile_cons_of_neg (by decide)]
  rw [List.append_nil]
  have e1 : d1.isEmpty = false := by simpa [List.isEmpty_iff] using h1ne
  have e2 : d2.isEmpty = false := by simpa [List.isEmpty_iff] using h2ne
  simp [e1, e2, h2d]

/-! ## Claim C9 -/

/-- C9: every score string captured by the unit pattern or the course
pattern parses successfully after comma-to-dot normalisation (it is
digits, a separator, digits by the very shape of the patterns), so the
coerce-to-0 `except ValueError` branch is never taken and every emitted
score is the successfully parsed value. -/
theorem c9_scores_always_parse (s : String) (sec : List Char) :
    (∀ pr ∈ ueFindAll s, ∃ q,
      parseFloatL? (pyStripL (commaToDotL pr.2.data)) = some q ∧ pyFloatOrZero pr.2 = q) ∧
    (∀ pr ∈ courseFindAll sec, ∃ q,
      parseFloatL? (pyStripL (commaToDotL pr.2)) = some q ∧
        pyFloatOrZero (String.mk pr.2) = q) := by
  constructor
  · intro pr hpr
    unfold ueFindAll at hpr
    rw [List.mem_map] at hpr
    obtain ⟨⟨nm, sc⟩, hmem, heq⟩ := hpr
    obtain ⟨q, hq⟩ := scoreShape_parse (ueFindAllAux_shape _ _ hmem)
    refine ⟨q, ?_, ?_⟩
    · rw [← heq]; exact hq
    · rw [← heq]
      unfold pyFloatOrZero
      show (parseFloatL? (pyStripL (commaToDotL sc))).getD 0 = q
      rw [hq]; rfl
  · intro pr hpr
    unfold courseFindAll at hpr
    obtain ⟨q, hq⟩ := scoreShape_parse
      (@courseFindAllAux_shape (sec.length + 1) true sec pr.1 pr.2 (by simpa using hpr))
    refine ⟨q, hq, ?_⟩
    unfold pyFloatOrZero
    show (parseFloatL? (pyStripL (commaToDotL pr.2))).getD 0 = q
    rw [hq]; rfl

/-- C9 witness: a unit capture and a course capture on concrete notes
text, with their parses produced by the theorem. -/
theorem c9_witness :
    ("UE1 x", "1,5") ∈ ueFindAll "UE1 x 1,5/20" ∧
    (['y'], ['2', ',', '5']) ∈ courseFindAll ("y 2,5/20".data) ∧
    (∃ q, parseFloatL? (pyStripL (commaToDotL (("1,5" : String).data))) = some q ∧
      pyFloatOrZero "1,5" = q) ∧
    (∃ q, parseFloatL? (pyStripL (commaToDotL ['2', ',', '5'])) = some q ∧
      pyFloatOrZero (String.mk ['2', ',', '5']) = q) := by
  refine ⟨by decide, by decide, ?_, ?_⟩
  · exact (c9_scores_always_parse "UE1 x 1,5/20" []).1 ("UE1 x", "1,5") (by decide)
  · exact (c9_scores_always_parse "" ("y 2,5/20".data)).2 (['y'], ['2', ',', '5']) (by decide)

/-! ## Store lemmas for the import transaction manager -/

theorem etuMatches_self (nom prenom numero parcours annee semestre : String) (i : Nat) :
    etuMatches nom prenom parcours annee semestre
      ⟨i, nom, prenom, numero, parcours, annee, semestre⟩ = true := by
  simp [etuMatches]

theorem selectEtudiantId_insert (db : DB) (nom prenom numero parcours annee semestre : String) :
    ∃ eid, selectEtudiantId (insertEtudiantOrIgnore db nom prenom numero parcours annee semestre)
      nom prenom parcours annee semestre = some eid := by
  unfold insertEtudiantOrIgnore selectEtudiantId
  split
  · rename_i hany
    rw [List.any_eq_true] at hany
    have hsome : (db.etudiants.find? (etuMatches nom prenom parcours annee semestre)).isSome := by
      rw [List.find?_isSome]
      exact hany
    obtain ⟨e', he'⟩ := Option.isSome_iff_exists.mp hsome
    exact ⟨e'.id, by rw [he']; rfl⟩
  · dsimp only
    rw [List.find?_append]
    cases hf : db.etudiants.find? (etuMatches nom prenom parcours annee semestre) with
    | some e => exact ⟨e.id, by simp⟩
    | none =>
      refine ⟨db.nextEtudiantId, ?_⟩
      simp [List.find?, etuMatches_self]

theorem selectEtudiantId_mono {db db' : DB} (hsub : dbSub db db')
    {nom prenom parcours annee semestre : String} {eid : Nat}
    (h : selectEtudiantId db nom prenom parcours annee semestre = some eid) :
    selectEtudiantId db' nom prenom parcours annee semestre = some eid := by
  obtain ⟨⟨l, hl⟩, -⟩ := hsub
  unfold selectEtudiantId at h ⊢
  rw [hl, List.find?_append]
  rw [Option.map_eq_some'] at h
  obtain ⟨e, he, heid⟩ := h
  rw [he]
  simp [heid]

theorem hasNote_mono {db db' : DB} (hsub : dbSub db db') {eid : Nat} {cours : String}
    (h : hasNote db eid cours = true) : hasNote db' eid cours = true := by
  obtain ⟨-, ⟨l, hl⟩⟩ := hsub
  unfold hasNote at h ⊢
  rw [hl, List.any_append, h, Bool.true_or]

theorem dbSub_refl (db : DB) : dbSub db db := ⟨⟨[], by simp⟩, ⟨[], by simp⟩⟩

theorem dbSub_trans {a b c : DB} (h1 : dbSub a b) (h2 : dbSub b c) : dbSub a c := by
  obtain ⟨⟨l1, e1⟩, ⟨m1, n1⟩⟩ := h1
  obtain ⟨⟨l2, e2⟩, ⟨m2, n2⟩⟩ := h2
  exact ⟨⟨l1 ++ l2, by rw [e2, e1, List.append_assoc]⟩,
    ⟨m1 ++ m2, by rw [n2, n1, List.append_assoc]⟩⟩

theorem dbSub_insertEtudiant (db : DB) (a b c d e f : String) :
    dbSub db (insertEtudiantOrIgnore db a b c d e f) := by
  unfold insertEtudiantOrIgnore
  split
  · exact dbSub_refl db
  · exact ⟨⟨_, rfl⟩, ⟨[], by simp⟩⟩

theorem dbSub_insertNote (db : DB) (eid : Nat) (ue cours : String) (q : ℚ) (est : Nat) :
    dbSub db (insertNoteOrIgnore db eid ue cours q est) := by
  unfold insertNoteOrIgnore
  split
  · exact dbSub_refl db
  · exact ⟨⟨[], by simp⟩, ⟨_, rfl⟩⟩

theorem dbSub_insertNotes (eid : Nat) (l : List Course) :
    ∀ db, dbSub db (insertNotes db eid l) := by
  induction l with
  | nil => intro db; exact dbSub_refl db
  | cons c rest ih =>
    intro db
    have hstep : insertNotes db eid (c :: rest) =
        insertNotes (insertNoteOrIgnore db eid c.ue c.cours c.note c.est_ue) eid rest := rfl
    rw [hstep]
    exact dbSub_trans (dbSub_insertNote db eid c.ue c.cours c.note c.est_ue) (ih _)

theorem insertNote_etudiants (db : DB) (eid : Nat) (ue cours : String) (q : ℚ) (est : Nat) :
    (insertNoteOrIgnore db eid ue cours q est).etudiants = db.etudiants := by
  unfold insertNoteOrIgnore
  split <;> rfl

theorem insertNotes_etudiants (eid : Nat) (l : List Course) :
    ∀ db, (insertNotes db eid l).etudiants = db.etudiants := by
  induction l with
  | nil => intro db; rfl
  | cons c rest ih =>
    intro db
    have hstep : insertNotes db eid (c :: rest) =
        insertNotes (insertNoteOrIgnore db eid c.ue c.cours c.note c.est_ue) eid rest := rfl
    rw [hstep, ih, insertNote_etudiants]

theorem hasNote_insert_self (db : DB) (eid : Nat) (ue cours : String) (q : ℚ) (est : Nat) :
    hasNote (insertNoteOrIgnore db eid ue cours q est) eid cours = true := by
  unfold insertNoteOrIgnore
  split
  · rename_i hh
    exact hh
  · unfold hasNote
    dsimp only
    rw [List.any_append]
    apply Bool.or_eq_true_iff.mpr
    right
    simp

theorem hasNote_insertNotes (eid : Nat) (l : List Course) :
    ∀ db, ∀ c ∈ l, hasNote (insertNotes db eid l) eid c.cours = true := by
  induction l with
  | nil => intro db c hc; simp at hc
  | cons c0 rest ih =>
    intro db c hc
    have hstep : insertNotes db eid (c0 :: rest) =
        insertNotes (insertNoteOrIgnore db eid c0.ue c0.cours c0.note c0.est_ue) eid rest := rfl
    rw [hstep]
    rcases List.mem_cons.mp hc with rfl | hmem
    · exact hasNote_mono (dbSub_insertNotes eid rest _)
        (hasNote_insert_self db eid c.ue c.cours c.note c.est_ue)
    · exact ih _ c hmem

theorem insertNotes_noop (eid : Nat) (l : List Course) :
    ∀ db, (∀ c ∈ l, hasNote db eid c.cours = true) → insertNotes db eid l = db := by
  induction l with
  | nil => intro db _; rfl
  | cons c0 rest ih =>
    intro db h
    have h0 : hasNote db eid c0.cours = true := h c0 (by simp)
    have hstep : insertNotes db eid (c0 :: rest) =
        insertNotes (insertNoteOrIgnore db eid c0.ue c0.cours c0.note c0.est_ue) eid rest := rfl
    rw [hstep]
    rw [show insertNoteOrIgnore db eid c0.ue c0.cours c0.note c0.est_ue = db from by
      unfold insertNoteOrIgnore; rw [if_pos h0]]
    exact ih db (fun c hc => h c (by simp [hc]))

theorem insertEtudiant_noop {db : DB} {nom prenom parcours annee semestre : String}
    (numero : String) {eid : Nat}
    (h : selectEtudiantId db nom prenom parcours annee semestre = some eid) :
    insertEtudiantOrIgnore db nom prenom numero parcours annee semestre = db := by
  have hany : db.etudiants.any (etuMatches nom prenom parcours annee semestre) = true := by
    unfold selectEtudiantId at h
    rw [Option.map_eq_some'] at h
    obtain ⟨e, he, -⟩ := h
    rw [List.any_eq_true]
    exact ⟨e, List.mem_of_find?_eq_some he, List.find?_some he⟩
  unfold insertEtudiantOrIgnore
  rw [if_pos hany]

theorem saturated_mono {p : ParcoursInfo} {db db' : DB} {s : StudentData}
    (hsub : dbSub db db') (h : studentSaturated p db s) : studentSaturated p db' s := by
  obtain ⟨eid, h1, h2⟩ := h
  exact ⟨eid, selectEtudiantId_mono hsub h1, fun c hc => hasNote_mono hsub (h2 c hc)⟩

theorem step_saturates (p : ParcoursInfo) (db : DB) (s : StudentData) {eid : Nat}
    (h : selectEtudiantId
        (insertEtudiantOrIgnore db s.nom s.prenom s.numero_etudiant p.parcours p.annee p.semestre)
        s.nom s.prenom p.parcours p.annee p.semestre = some eid) :
    studentSaturated p
      (insertNotes
        (insertEtudiantOrIgnore db s.nom s.prenom s.numero_etudiant p.parcours p.annee p.semestre)
        eid s.cours) s := by
  refine ⟨eid, ?_, ?_⟩
  · unfold selectEtudiantId at h ⊢
    rw [insertNotes_etudiants]
    exact h
  · intro c hc
    exact hasNote_insertNotes eid s.cours _ c hc

theorem dbSub_step (p : ParcoursInfo) (db : DB) (s : StudentData) (eid : Nat) :
    dbSub db (insertNotes
      (insertEtudiantOrIgnore db s.nom s.prenom s.numero_etudiant p.parcours p.annee p.semestre)
      eid s.cours) :=
  dbSub_trans
    (dbSub_insertEtudiant db s.nom s.prenom s.numero_etudiant p.parcours p.annee p.semestre)
    (dbSub_insertNotes eid s.cours _)

theorem importLoop_cons (faults : Nat → Bool) (p : ParcoursInfo) (s : StudentData)
    (rest : List StudentData) (i : Nat) (db : DB) (cnt : Nat) :
    importLoop faults p (s :: rest) i db cnt =
      if faults i then importLoop faults p rest (i + 1) db cnt
      else
        match selectEtudiantId
            (insertEtudiantOrIgnore db s.nom s.prenom s.numero_etudiant p.parcours p.annee p.semestre)
            s.nom s.prenom p.parcours p.annee p.semestre with
        | none => .error .typeError
        | some eid => importLoop faults p rest (i + 1)
            (insertNotes
              (insertEtudiantOrIgnore db s.nom s.prenom s.numero_etudiant p.parcours p.annee p.semestre)
              eid s.cours) (cnt + 1) := rfl

theorem importLoop_noFaults_ok (p : ParcoursInfo) :
    ∀ (l : List StudentData) (i : Nat) (db : DB) (cnt : Nat),
      ∃ db', importLoop noFaults p l i db cnt = .ok (db', cnt + l.length) ∧ dbSub db db' ∧
        ∀ s ∈ l, studentSaturated p db' s := by
  intro l
  induction l with
  | nil =>
    intro i db cnt
    exact ⟨db, by simp [importLoop], dbSub_refl db, by simp⟩
  | cons s rest ih =>
    intro i db cnt
    obtain ⟨eid, hsel⟩ :=
      selectEtudiantId_insert db s.nom s.prenom s.numero_etudiant p.parcours p.annee p.semestre
    obtain ⟨db', hloop, hsub, hsat⟩ := ih (i + 1)
      (insertNotes
        (insertEtudiantOrIgnore db s.nom s.prenom s.numero_etudiant p.parcours p.annee p.semestre)
        eid s.cours) (cnt + 1)
    refine ⟨db', ?_, ?_, ?_⟩
    · calc importLoop noFaults p (s :: rest) i db cnt
          = importLoop noFaults p rest (i + 1)
              (insertNotes
                (insertEtudiantOrIgnore db s.nom s.prenom s.numero_etudiant p.parcours p.annee p.semestre)
                eid s.cours) (cnt + 1) := by
            rw [importLoop_cons, if_neg (by simp [noFaults]), hsel]
        _ = .ok (db', cnt + 1 + rest.length) := hloop
        _ = .ok (db', cnt + (s :: rest).length) := by
            rw [List.length_cons, show cnt + (rest.length + 1) = cnt + 1 + rest.length from by omega]
    · exact dbSub_trans (dbSub_step p db s eid) hsub
    · intro s' hs'
      rcases List.mem_cons.mp hs' with rfl | hmem
      · exact saturated_mono hsub (step_saturates p db s' hsel)
      · exact hsat s' hmem

theorem importLoop_noop (p : ParcoursInfo) :
    ∀ (l : List StudentData) (i : Nat) (db : DB) (cnt : Nat),
      (∀ s ∈ l, studentSaturated p db s) →
      importLoop noFaults p l i db cnt = .ok (db, cnt + l.length) := by
  intro l
  induction l with
  | nil => intro i db cnt _; simp [importLoop]
  | cons s rest ih =>
    intro i db cnt h
    obtain ⟨eid, hsel, hnotes⟩ := h s (by simp)
    have hins : insertEtudiantOrIgnore db s.nom s.prenom s.numero_etudiant
        p.parcours p.annee p.semestre = db := insertEtudiant_noop s.numero_etudiant hsel
    calc importLoop noFaults p (s :: rest) i db cnt
        = importLoop noFaults p rest (i + 1) db (cnt + 1) := by
          rw [importLoop_cons, if_neg (by simp [noFaults]), hins, hsel]
          show importLoop noFaults p rest (i + 1) (insertNotes db eid s.cours) (cnt + 1) = _
          rw [insertNotes_noop eid s.cours db hnotes]
      _ = .ok (db, cnt + 1 + rest.length) := ih (i + 1) db (cnt + 1)
            (fun s' hs' => h s' (by simp [hs']))
      _ = .ok (db, cnt + (s :: rest).length) := by
          rw [List.length_cons, show cnt + (rest.length + 1) = cnt + 1 + rest.length from by omega]

/-! ## Claim C2 -/

/-- C2 (amended): re-importing the same parsed document over the same
store changes nothing — all duplicate identity rows and duplicate grade
rows are silently skipped, never overwritten, so the row counts are
unchanged — but the function's return value on the second run is the
number of parsed students again (each student's savepoint completes
without an integrity error), not 0. -/
theorem c2_amended_idempotent (p : ParcoursInfo) (students : List StudentData)
    (db db1 : DB) (n1 : Nat)
    (h : import_apogee_data false noFaults p students db = .ok (db1, n1)) :
    n1 = students.length ∧
      import_apogee_data false noFaults p students db1 = .ok (db1, students.length) := by
  cases students with
  | nil =>
    replace h : (Except.ok (db, 0) : Except PyError (DB × Nat)) = .ok (db1, n1) := h
    simp only [Except.ok.injEq, Prod.mk.injEq] at h
    obtain ⟨rfl, rfl⟩ := h
    exact ⟨rfl, rfl⟩
  | cons s rest =>
    replace h : importLoop noFaults p (s :: rest) 0 db 0 = .ok (db1, n1) := h
    obtain ⟨db', hloop, -, hsat⟩ := importLoop_noFaults_ok p (s :: rest) 0 db 0
    rw [hloop] at h
    simp only [Except.ok.injEq, Prod.mk.injEq] at h
    obtain ⟨rfl, rfl⟩ := h
    refine ⟨by omega, ?_⟩
    show importLoop noFaults p (s :: rest) 0 db' 0 = .ok (db', (s :: rest).length)
    rw [importLoop_noop p (s :: rest) 0 db' 0 hsat, Nat.zero_add]

/-- C2 witness: the amended theorem applied to a concrete one-student
document imported into an empty store. -/
theorem c2_witness :
    1 = [stW].length ∧
      import_apogee_data false noFaults pW [stW] dbW1 = .ok (dbW1, [stW].length) :=
  c2_amended_idempotent pW [stW] dbEmpty dbW1 1 (by decide)

/-- C2 (counterexample): importing the same one-student document twice
leaves the store unchanged, but the second run's returned
successfully-committed count is 1, not the claimed 0. -/
theorem c2_claim_counterexample :
    import_apogee_data false noFaults pW [stW] dbEmpty = .ok (dbW1, 1) ∧
    import_apogee_data false noFaults pW [stW] dbW1 = .ok (dbW1, 1) ∧
    (1 : Nat) ≠ 0 := ⟨by decide, by decide, by decide⟩

/-! ## Claim C3 -/

theorem survivors_cons (faults : Nat → Bool) (i : Nat) (s : StudentData)
    (rest : List StudentData) :
    survivors faults i (s :: rest) =
      if faults i then survivors faults (i + 1) rest
      else s :: survivors faults (i + 1) rest := rfl

theorem importLoop_survivors (faults : Nat → Bool) (p : ParcoursInfo) :
    ∀ (l : List StudentData) (i j : Nat) (db : DB) (cnt : Nat),
      importLoop faults p l i db cnt = importLoop noFaults p (survivors faults i l) j db cnt := by
  intro l
  induction l with
  | nil => intro i j db cnt; rfl
  | cons s rest ih =>
    intro i j db cnt
    by_cases hf : faults i = true
    · rw [importLoop_cons, if_pos hf, survivors_cons, if_pos hf]
      exact ih (i + 1) j db cnt
    · rw [importLoop_cons, if_neg hf, survivors_cons, if_neg hf,
        importLoop_cons noFaults, if_neg (by simp [noFaults])]
      cases hsel : selectEtudiantId
          (insertEtudiantOrIgnore db s.nom s.prenom s.numero_etudiant p.parcours p.annee p.semestre)
          s.nom s.prenom p.parcours p.annee p.semestre with
      | none => rfl
      | some eid =>
        show importLoop faults p rest (i + 1)
            (insertNotes
              (insertEtudiantOrIgnore db s.nom s.prenom s.numero_etudiant p.parcours p.annee p.semestre)
              eid s.cours) (cnt + 1) =
          importLoop noFaults p (survivors faults (i + 1) rest) (j + 1)
            (insertNotes
              (insertEtudiantOrIgnore db s.nom s.prenom s.numero_etudiant p.parcours p.annee p.semestre)
              eid s.cours) (cnt + 1)
        exact ih (i + 1) (j + 1) _ _

theorem survivors_length_le (faults : Nat → Bool) :
    ∀ (l : List StudentData) (i : Nat), (survivors faults i l).length ≤ l.length := by
  intro l
  induction l with
  | nil => intro i; simp [survivors]
  | cons s rest ih =>
    intro i
    unfold survivors
    split
    · exact Nat.le_trans (ih (i + 1)) (by simp)
    · simpa using ih (i + 1)

/-- C3: whatever the pattern of integrity violations raised inside the
per-student savepoint scopes, the import behaves exactly like a
fault-free import of the non-faulting students alone — every faulted
student's rows are rolled back in full, processing continues with the
next student — and the function returns the count of students actually
committed, which is at most the count attempted. -/
theorem c3_partial_failure_isolation (p : ParcoursInfo) (students : List StudentData)
    (db : DB) (faults : Nat → Bool) :
    import_apogee_data false faults p students db =
      import_apogee_data false noFaults p (survivors faults 0 students) db ∧
    (∃ db', import_apogee_data false faults p students db =
      .ok (db', (survivors faults 0 students).length)) ∧
    (survivors faults 0 students).length ≤ students.length := by
  have key : import_apogee_data false faults p students db =
      import_apogee_data false noFaults p (survivors faults 0 students) db := by
    cases students with
    | nil => rfl
    | cons s rest =>
      have h1 : import_apogee_data false faults p (s :: rest) db =
          importLoop faults p (s :: rest) 0 db 0 := rfl
      rw [h1, importLoop_survivors faults p (s :: rest) 0 0 db 0]
      cases hs : survivors faults 0 (s :: rest) with
      | nil => rfl
      | cons s' rest' => rfl
  refine ⟨key, ?_, survivors_length_le faults students 0⟩
  rw [key]
  cases hs : survivors faults 0 students with
  | nil => exact ⟨db, rfl⟩
  | cons s rest =>
    obtain ⟨db', hloop, -, -⟩ := importLoop_noFaults_ok p (s :: rest) 0 db 0
    refine ⟨db', ?_⟩
    show importLoop noFaults p (s :: rest) 0 db 0 = _
    rw [hloop, Nat.zero_add]

/-! ## Claim C10 -/

/-- C10: when zero student records were extracted from the document,
`import_apogee_data` returns 0 before even opening the store
connection (the result is 0 whether or not the store is reachable and
whatever the driver's fault behaviour), and both tables are left
completely unchanged. -/
theorem c10_zero_students_frame (connFails : Bool) (faults : Nat → Bool)
    (p : ParcoursInfo) (db : DB) :
    import_apogee_data connFails faults p [] db = .ok (db, 0) := rfl

/-! ## Claim C6 -/

theorem delete_data_eq (db : DB) (a pc s : String) :
    delete_data false (some a) (some pc) (some s) db =
      (if ((db.etudiants.filter (critMatches (some a) (some pc) (some s))).map
          (fun e => e.id)).isEmpty = true
       then .ok (db, 0)
       else .ok ({ db with
          etudiants := db.etudiants.filter (fun e => !(critMatches (some a) (some pc) (some s) e)),
          notes := db.notes.filter (fun n =>
            !(((db.etudiants.filter (critMatches (some a) (some pc) (some s))).map
              (fun e => e.id)).contains n.etudiant_id)) },
          ((db.etudiants.filter (critMatches (some a) (some pc) (some s))).map
            (fun e => e.id)).length)) := rfl

/-- C6: with all three filters (academicYear, track, semester) present,
`delete_data` removes exactly the grade rows whose owning student
matches all three, removes exactly the matching identity rows, returns
the number of students deleted, and deletes nothing (returning 0) when
no student matches. -/
theorem c6_delete_exact (db : DB) (a pc s : String) :
    ∃ db' cnt, delete_data false (some a) (some pc) (some s) db = .ok (db', cnt) ∧
      (∀ n : NoteRow, n ∈ db'.notes ↔ n ∈ db.notes ∧
        ¬ ∃ e, e ∈ db.etudiants ∧ critMatches (some a) (some pc) (some s) e = true ∧
          e.id = n.etudiant_id) ∧
      (∀ e : Etudiant, e ∈ db'.etudiants ↔ e ∈ db.etudiants ∧
        critMatches (some a) (some pc) (some s) e = false) ∧
      cnt = (db.etudiants.filter (critMatches (some a) (some pc) (some s))).length ∧
      (db.etudiants.filter (critMatches (some a) (some pc) (some s)) = [] →
        db' = db ∧ cnt = 0) := by
  by_cases hids : ((db.etudiants.filter (critMatches (some a) (some pc) (some s))).map
      (fun e => e.id)).isEmpty = true
  · have hfil : db.etudiants.filter (critMatches (some a) (some pc) (some s)) = [] := by
      rw [List.isEmpty_eq_true, List.map_eq_nil_iff] at hids
      exact hids
    have hnone : ∀ e ∈ db.etudiants, ¬ critMatches (some a) (some pc) (some s) e = true :=
      List.filter_eq_nil_iff.mp hfil
    refine ⟨db, 0, by rw [delete_data_eq, if_pos hids], ?_, ?_, ?_, fun _ => ⟨rfl, rfl⟩⟩
    · intro n
      constructor
      · intro hn
        refine ⟨hn, ?_⟩
        rintro ⟨e, he, hme, -⟩
        exact hnone e he hme
      · exact fun hn => hn.1
    · intro e
      constructor
      · intro he
        refine ⟨he, ?_⟩
        exact Bool.eq_false_iff.mpr (hnone e he)
      · exact fun he => he.1
    · rw [hfil]
      rfl
  · refine ⟨_, _, by rw [delete_data_eq, if_neg hids], ?_, ?_, ?_, ?_⟩
    · intro n
      dsimp only
      rw [List.mem_filter]
      constructor
      · rintro ⟨hn, hc⟩
        refine ⟨hn, ?_⟩
        rintro ⟨e, he, hme, hid⟩
        rw [Bool.not_eq_true', Bool.eq_false_iff] at hc
        apply hc
        have : n.etudiant_id ∈ (db.etudiants.filter
            (critMatches (some a) (some pc) (some s))).map (fun e => e.id) := by
          rw [List.mem_map]
          exact ⟨e, List.mem_filter.mpr ⟨he, hme⟩, hid⟩
        exact List.elem_iff.mpr this
      · rintro ⟨hn, hne⟩
        refine ⟨hn, ?_⟩
        rw [Bool.not_eq_true', Bool.eq_false_iff]
        intro hcon
        apply hne
        have := List.elem_iff.mp hcon
        rw [List.mem_map] at this
        obtain ⟨e, hef, hid⟩ := this
        rw [List.mem_filter] at hef
        exact ⟨e, hef.1, hef.2, hid⟩
    · intro e
      dsimp only
      rw [List.mem_filter]
      constructor
      · rintro ⟨he, hc⟩
        refine ⟨he, ?_⟩
        simpa using hc
      · rintro ⟨he, hc⟩
        refine ⟨he, ?_⟩
        simpa using hc
    · dsimp only
      rw [List.length_map]
    · intro hfil
      exact absurd (show ((db.etudiants.filter (critMatches (some a) (some pc) (some s))).map
        (fun e => e.id)).isEmpty = true from by rw [hfil]; rfl) hids

/-- C6 witness: the theorem applied to the empty store, where no
student matches and the delete is the identity returning 0. -/
theorem c6_witness :
    delete_data false (some "A") (some "P") (some "S") dbEmpty = .ok (dbEmpty, 0) := by
  obtain ⟨db', cnt, h1, -, -, -, h5⟩ := c6_delete_exact dbEmpty "A" "P" "S"
  obtain ⟨rfl, rfl⟩ := h5 (by rfl)
  exact h1

/-! ## Claim C8 -/

/-- C8 (counterexample): when the store is unreachable,
`get_available_years` does not surface the failure: it catches every
exception and returns an ordinary empty list, silently hiding the
year that the store actually holds. -/
theorem c8_claim_counterexample :
    get_available_years true dbY = .ok [] ∧
    get_available_years false dbY = .ok ["2022-2023"] := ⟨rfl, by decide⟩

/-- C8 (amended): with the store unreachable at connection time no
operation commits anything, but only the import (and, by an accident
of its broken handler, the delete) surface an error to the caller:
the importer re-raises the connection error (after the no-student
early return, which never touches the connection), `delete_data`'s own
handler crashes on the unassigned `conn` variable, while all the
listing queries (years, tracks, semesters, units, courses), the
students listing, the per-student fetch and the export swallow the
failure and return empty results. -/
theorem c8_amended (db : DB) (p : ParcoursInfo) (students : List StudentData)
    (faults : Nat → Bool) (a pc s u : Option String) (nom prenom : String)
    (hne : students ≠ []) :
    import_apogee_data true faults p students db = .error .connError ∧
    get_available_years true db = .ok [] ∧
    get_available_parcours true a db = .ok [] ∧
    get_available_semestres true a pc db = .ok [] ∧
    get_available_ues true a pc s db = .ok [] ∧
    get_available_courses true a pc s u db = .ok [] ∧
    get_students true a pc s db = .ok [] ∧
    get_student_data true nom prenom a pc s db = .ok [] ∧
    export_to_dataframe true db = .ok [] ∧
    delete_data true a pc s db = .error .unboundLocal := by
  refine ⟨?_, rfl, rfl, rfl, rfl, rfl, rfl, rfl, rfl, rfl⟩
  unfold import_apogee_data
  rw [if_neg (by simpa [List.isEmpty_iff] using hne)]
  rfl

/-! ## Block-level remainder of claim C7 (the segmentation step itself,
a 20-line lookahead regex scanned by findall over the raw document, is
not embedded; this settles what happens from the segmented blocks on) -/

/-- Every block the segmenter returns is processed without raising
(`_process_student_block` always succeeds on a 4-tuple), and a
fault-free import commits every one of the parsed students: the number
of committed students equals the number of segmented blocks. -/
theorem blocks_all_processed_and_committed (p : ParcoursInfo) (db : DB)
    (blocks : List (String × String × String × String)) :
    (∀ b ∈ blocks, (process_student_block b).isSome = true) ∧
    ∃ db', import_apogee_data false noFaults p (blocks.filterMap process_student_block) db =
      .ok (db', blocks.length) := by
  refine ⟨fun b _ => rfl, ?_⟩
  have hlen : (blocks.filterMap process_student_block).length = blocks.length := by
    induction blocks with
    | nil => rfl
    | cons b rest ih => simp [process_student_block, List.filterMap_cons, ih]
  cases hb : blocks.filterMap process_student_block with
  | nil =>
    refine ⟨db, ?_⟩
    rw [← hlen, hb]
    rfl
  | cons s rest =>
    obtain ⟨db', hloop, -, -⟩ := importLoop_noFaults_ok p (s :: rest) 0 db 0
    refine ⟨db', ?_⟩
    rw [← hlen, hb]
    show importLoop noFaults p (s :: rest) 0 db 0 = _
    rw [hloop, Nat.zero_add]

/-- C8 witness: the amended claim at a concrete store and document. -/
theorem c8_witness :
    import_apogee_data true noFaults pW [stW] dbY = .error .connError ∧
    get_available_years true dbY = .ok [] ∧
    get_available_parcours true (some "2022-2023") dbY = .ok [] ∧
    get_available_semestres true (some "2022-2023") (some "M1 API") dbY = .ok [] ∧
    get_available_ues true (some "2022-2023") (some "M1 API") (some "7") dbY = .ok [] ∧
    get_available_courses true (some "2022-2023") (some "M1 API") (some "7") none dbY = .ok [] ∧
    get_students true (some "2022-2023") (some "M1 API") (some "7") dbY = .ok [] ∧
    get_student_data true "DOE" "Jane" (some "2022-2023") (some "M1 API") (some "7") dbY = .ok [] ∧
    export_to_dataframe true dbY = .ok [] ∧
    delete_data true (some "2022-2023") (some "M1 API") (some "7") dbY = .error .unboundLocal :=
  c8_amended dbY pW [stW] noFaults (some "2022-2023") (some "M1 API") (some "7") none
    "DOE" "Jane" (by simp)

end Apogee
